import Mathlib

/-!
Shallow embedding of the casbin prometheus logger core
(`prometheus_logger.go`): the event envelope, the before/after hooks,
the enforcement label projector, the metric recording, and the
registration lifecycle.  Metric emission is modelled as a trace of
metric operations together with an interpretation of that trace onto an
explicit metric state; timestamps are integers (nanoseconds) and
durations in seconds are rationals.
-/

/-- Event types are strings: the recorder converts an event type to a
string label with a plain Go string conversion, which is only legal for
a string-kinded type. -/
abbrev EventType := String

/-- Modelled from the spec: the declaration file of the event-kind
constants is not part of the sources; the spec fixes a closed
enumeration of five kinds, here given five distinct string values. -/
def EventEnforce : EventType := "enforce"

/-- Modelled from the spec: policy-addition event kind. -/
def EventAddPolicy : EventType := "add_policy"

/-- Modelled from the spec: policy-removal event kind. -/
def EventRemovePolicy : EventType := "remove_policy"

/-- Modelled from the spec: policy-load event kind. -/
def EventLoadPolicy : EventType := "load_policy"

/-- Modelled from the spec: policy-save event kind. -/
def EventSavePolicy : EventType := "save_policy"

/-- Modelled from the spec: the event envelope record.  Its declaring
file is not part of the sources; the fields are the ones the recorder
code and its tests read and write: event type, enforcement attributes,
policy-operation outcome, timestamps, duration and the active flag.
Timestamps and the duration are integer nanoseconds; the optional
failure is an optional error message. -/
structure LogEntry where
  eventType : EventType
  subject : String
  object : String
  action : String
  domain : String
  allowed : Bool
  ruleCount : Int
  failure : Option String
  startTime : Int
  endTime : Int
  duration : Int
  isActive : Bool
deriving DecidableEq

/-- A metric vector as created at construction: a family name and the
ordered list of label names. -/
structure VecSpec where
  name : String
  labelNames : List String
deriving DecidableEq

/-- The six metric families of the logger. -/
inductive MetricFamily where
  | enforceDuration
  | enforceTotal
  | policyOpsTotal
  | policyOpsDuration
  | policyRulesCount
  | policyStateCount
deriving DecidableEq

/-- One primitive metric mutation: a counter increment, a histogram
observation, or a gauge set, each addressed by family and label-value
vector. -/
inductive MetricOp where
  | inc (f : MetricFamily) (labels : List String)
  | observe (f : MetricFamily) (labels : List String) (v : ℚ)
  | set (f : MetricFamily) (labels : List String) (v : ℚ)
deriving DecidableEq

/-- One observable effect of the after-hook: a metric mutation or a
callback invocation with the envelope passed to it. -/
inductive Effect where
  | metric (op : MetricOp)
  | callback (e : LogEntry)
deriving DecidableEq

/-- The logger: the enabled event-type set (map keys), the optional
callback, the configured enforcement label names, and the six metric
vectors created at construction. -/
structure PrometheusLogger where
  enabledEventTypes : List EventType
  callback : Option (LogEntry → Option String)
  enforceLabels : List String
  enforceDuration : VecSpec
  enforceTotal : VecSpec
  policyOpsTotal : VecSpec
  policyOpsDuration : VecSpec
  policyRulesCount : VecSpec
  policyStateCount : VecSpec

/-- Validity test of an optional enforcement label name
(`label == "subject" || label == "object" || label == "action"`). -/
def isValidEnforceLabel (label : String) : Bool :=
  label == "subject" || label == "object" || label == "action"

/-- The enforcement label list built at construction: start from
`["allowed", "domain"]` and append, in order, each supplied option that
passes the allow-list test. -/
def buildEnforceLabels (opts : List String) : List String :=
  opts.foldl
    (fun acc label => if isValidEnforceLabel label then acc ++ [label] else acc)
    ["allowed", "domain"]

/-- `NewPrometheusLoggerWithOptions`: resolve the enforcement label
list and create the six metric vectors (registration is modelled
separately by `mustRegisterAll`).  `none` options mean the empty
option list. -/
def NewPrometheusLoggerWithOptions (options : Option (List String)) : PrometheusLogger :=
  let enforceLabels := buildEnforceLabels (options.getD [])
  { enabledEventTypes := []
    callback := none
    enforceLabels := enforceLabels
    enforceDuration := ⟨"casbin_enforce_duration_seconds", enforceLabels⟩
    enforceTotal := ⟨"casbin_enforce_total", enforceLabels⟩
    policyOpsTotal := ⟨"casbin_policy_operations_total", ["operation", "success"]⟩
    policyOpsDuration := ⟨"casbin_policy_operations_duration_seconds", ["operation"]⟩
    policyRulesCount := ⟨"casbin_policy_rules_count", ["operation"]⟩
    policyStateCount := ⟨"casbin_policy_state_count", ["ptype"]⟩ }

/-- `SetEventTypes`: replace the enabled event-type set; returns nil. -/
def SetEventTypes (p : PrometheusLogger) (eventTypes : List EventType) :
    PrometheusLogger × Option String :=
  ({ p with enabledEventTypes := eventTypes }, none)

/-- `SetLogCallback`: install the callback; returns nil. -/
def SetLogCallback (p : PrometheusLogger) (cb : LogEntry → Option String) :
    PrometheusLogger × Option String :=
  ({ p with callback := some cb }, none)

/-- `OnBeforeEvent`: if some event types are enabled and the entry's
type is not among them, mark the entry inactive; otherwise mark it
active and stamp the start time.  Always returns nil. -/
def OnBeforeEvent (p : PrometheusLogger) (entry : LogEntry) (now : Int) :
    LogEntry × Option String :=
  if 0 < p.enabledEventTypes.length ∧ entry.eventType ∉ p.enabledEventTypes then
    ({ entry with isActive := false }, none)
  else
    ({ entry with isActive := true, startTime := now }, none)

/-- A duration in seconds: integer nanoseconds divided by `10 ^ 9`,
as a rational. -/
def durationSeconds (d : Int) : ℚ :=
  (d : ℚ) / 1000000000

/-- The enforcement label-value vector: for each configured label name,
in order, resolve the value from the envelope (`allowed` as a boolean
string, `domain` with the empty string rewritten to `"default"`,
`subject`, `object`, `action` verbatim; anything else is left at the
zero value). -/
def enforceLabelValues (labels : List String) (entry : LogEntry) : List String :=
  labels.map fun label =>
    if label = "allowed" then (if entry.allowed then "true" else "false")
    else if label = "domain" then (if entry.domain = "" then "default" else entry.domain)
    else if label = "subject" then entry.subject
    else if label = "object" then entry.object
    else if label = "action" then entry.action
    else ""

/-- `recordEnforceMetrics`: observe the duration in seconds into the
enforcement duration histogram and increment the enforcement counter,
both at the projected label-value vector. -/
def recordEnforceMetrics (p : PrometheusLogger) (entry : LogEntry) : List MetricOp :=
  let labelValues := enforceLabelValues p.enforceLabels entry
  [MetricOp.observe MetricFamily.enforceDuration labelValues (durationSeconds entry.duration),
   MetricOp.inc MetricFamily.enforceTotal labelValues]

/-- `recordPolicyMetrics`: increment the policy-operation counter at
(operation, success), observe the duration into the policy-operation
duration histogram at (operation), and when the rule count is positive
set the policy-rule-count gauge at (operation) to it. -/
def recordPolicyMetrics (entry : LogEntry) : List MetricOp :=
  let operation : String := entry.eventType
  let success : String := if entry.failure.isSome then "false" else "true"
  [MetricOp.inc MetricFamily.policyOpsTotal [operation, success],
   MetricOp.observe MetricFamily.policyOpsDuration [operation] (durationSeconds entry.duration)]
  ++ (if 0 < entry.ruleCount then
        [MetricOp.set MetricFamily.policyRulesCount [operation] (entry.ruleCount : ℚ)]
      else [])

/-- The dispatch of the after-hook's switch statement on the event
type: enforce events and the four policy-operation events record
metrics, everything else falls through. -/
def dispatchOps (p : PrometheusLogger) (e : LogEntry) : List MetricOp :=
  if e.eventType = EventEnforce then recordEnforceMetrics p e
  else if e.eventType = EventAddPolicy ∨ e.eventType = EventRemovePolicy
        ∨ e.eventType = EventLoadPolicy ∨ e.eventType = EventSavePolicy then
    recordPolicyMetrics e
  else []

/-- `OnAfterEvent`: an inactive entry produces no effects and returns
nil; an active entry gets its end time stamped and duration recomputed,
metrics are recorded by event type, and the callback, when set, is
invoked last with the updated entry, its error becoming the result. -/
def OnAfterEvent (p : PrometheusLogger) (entry : LogEntry) (now : Int) :
    LogEntry × List Effect × Option String :=
  if entry.isActive then
    let e := { entry with endTime := now, duration := now - entry.startTime }
    let ops := dispatchOps p e
    match p.callback with
    | some cb => (e, ops.map Effect.metric ++ [Effect.callback e], cb e)
    | none => (e, ops.map Effect.metric, none)
  else
    (entry, [], none)

/-- The metric state interpretation: counter values, histogram
observation lists and gauge values, addressed by family and label
vector. -/
structure MetricState where
  counters : MetricFamily → List String → ℚ
  histograms : MetricFamily → List String → List ℚ
  gauges : MetricFamily → List String → Option ℚ

/-- Apply one metric operation to a metric state. -/
def applyOp (s : MetricState) : MetricOp → MetricState
  | MetricOp.inc f l =>
      { s with counters := fun f2 l2 =>
          if f2 = f ∧ l2 = l then s.counters f2 l2 + 1 else s.counters f2 l2 }
  | MetricOp.observe f l v =>
      { s with histograms := fun f2 l2 =>
          if f2 = f ∧ l2 = l then s.histograms f2 l2 ++ [v] else s.histograms f2 l2 }
  | MetricOp.set f l v =>
      { s with gauges := fun f2 l2 =>
          if f2 = f ∧ l2 = l then some v else s.gauges f2 l2 }

/-- Apply a list of metric operations in order. -/
def applyOps (s : MetricState) (ops : List MetricOp) : MetricState :=
  ops.foldl applyOp s

/-- The metric operations of an effect trace. -/
def metricOps (t : List Effect) : List MetricOp :=
  t.filterMap fun e =>
    match e with
    | Effect.metric op => some op
    | Effect.callback _ => none

/-- The callback invocations of an effect trace. -/
def callbackCalls (t : List Effect) : List LogEntry :=
  t.filterMap fun e =>
    match e with
    | Effect.metric _ => none
    | Effect.callback x => some x

/-- Apply all metric operations of an effect trace to a metric state. -/
def applyEffects (s : MetricState) (t : List Effect) : MetricState :=
  applyOps s (metricOps t)

/-- A registry, modelled as the list of registered family names. -/
abbrev Registry := List String

/-- `Registry.Unregister` for one family: remove it when present,
reporting whether it was found.  Total: it never fails. -/
def registryUnregister (reg : Registry) (n : String) : Registry × Bool :=
  if n ∈ reg then (reg.filter fun m => m ≠ n, true) else (reg, false)

/-- The six family names of a logger, in registration order. -/
def loggerMetricNames (p : PrometheusLogger) : List String :=
  [p.enforceDuration.name, p.enforceTotal.name, p.policyOpsTotal.name,
   p.policyOpsDuration.name, p.policyRulesCount.name, p.policyStateCount.name]

/-- `MustRegister` of one collector: fails (models the panic) on a name
collision, otherwise appends the name. -/
def registerCollector (acc : Option Registry) (n : String) : Option Registry :=
  match acc with
  | none => none
  | some reg => if n ∈ reg then none else some (reg ++ [n])

/-- Registration of all six families at construction, in order. -/
def mustRegisterAll (reg : Registry) (p : PrometheusLogger) : Option Registry :=
  (loggerMetricNames p).foldl registerCollector (some reg)

/-- `UnregisterFrom`: unregister the six families in order; the result
boolean is the conjunction of the individual outcomes, and the call
always completes. -/
def UnregisterFrom (p : PrometheusLogger) (reg : Registry) : Registry × Bool :=
  let r1 := registryUnregister reg p.enforceDuration.name
  let r2 := registryUnregister r1.1 p.enforceTotal.name
  let r3 := registryUnregister r2.1 p.policyOpsTotal.name
  let r4 := registryUnregister r3.1 p.policyOpsDuration.name
  let r5 := registryUnregister r4.1 p.policyRulesCount.name
  let r6 := registryUnregister r5.1 p.policyStateCount.name
  (r6.1, r6.2 && (r5.2 && (r4.2 && (r3.2 && (r2.2 && (r1.2 && true))))))

/-! Helper lemmas and concrete example inputs used by the witnesses. -/

theorem metricOps_map_metric (l : List MetricOp) :
    metricOps (l.map Effect.metric) = l := by
  induction l with
  | nil => rfl
  | cons a t ih => simpa [metricOps, List.filterMap_cons] using ih

theorem metricOps_append (a b : List Effect) :
    metricOps (a ++ b) = metricOps a ++ metricOps b := by
  simp [metricOps, List.filterMap_append]

def stateExample : MetricState :=
  ⟨fun _ _ => 0, fun _ _ => [], fun _ _ => none⟩

def entryEnforceExample : LogEntry :=
  { eventType := EventEnforce, subject := "alice", object := "data1",
    action := "read", domain := "domain1", allowed := true, ruleCount := 0,
    failure := none, startTime := 100, endTime := 0, duration := 0,
    isActive := true }

def entryInactiveExample : LogEntry :=
  { entryEnforceExample with isActive := false }

/-- C1: the before-hook admits the entry exactly when the enabled set is
empty or contains the entry's event type; admitted entries become active
with the start time stamped, rejected entries become inactive with the
start time untouched; the result is always nil. -/
theorem onBeforeEvent_gate (p : PrometheusLogger) (entry : LogEntry) (now : Int) :
    (OnBeforeEvent p entry now).2 = none ∧
    ((p.enabledEventTypes = [] ∨ entry.eventType ∈ p.enabledEventTypes) →
      (OnBeforeEvent p entry now).1 = { entry with isActive := true, startTime := now }) ∧
    (¬(p.enabledEventTypes = [] ∨ entry.eventType ∈ p.enabledEventTypes) →
      (OnBeforeEvent p entry now).1 = { entry with isActive := false }) := by
  have hiff : (0 < p.enabledEventTypes.length ∧ entry.eventType ∉ p.enabledEventTypes)
      ↔ ¬(p.enabledEventTypes = [] ∨ entry.eventType ∈ p.enabledEventTypes) := by
    rw [not_or, List.length_pos]
  unfold OnBeforeEvent
  by_cases h : p.enabledEventTypes = [] ∨ entry.eventType ∈ p.enabledEventTypes
  · rw [if_neg (fun hc => (hiff.mp hc) h)]
    exact ⟨rfl, fun _ => rfl, fun hc => absurd h hc⟩
  · rw [if_pos (hiff.mpr h)]
    exact ⟨rfl, fun hc => absurd hc h, fun _ => rfl⟩

theorem onBeforeEvent_gate_witness :
    (OnBeforeEvent (NewPrometheusLoggerWithOptions none) entryEnforceExample 5).1
      = { entryEnforceExample with isActive := true, startTime := 5 } :=
  (onBeforeEvent_gate (NewPrometheusLoggerWithOptions none) entryEnforceExample 5).2.1
    (Or.inl rfl)

/-- C2: on an inactive entry the after-hook is inert: the entry is
unchanged, the effect trace is empty (so no counter, histogram or gauge
of any family changes and no callback is invoked) and the result is
nil. -/
theorem onAfterEvent_inactive_inert (p : PrometheusLogger) (entry : LogEntry)
    (now : Int) (s : MetricState) (h : entry.isActive = false) :
    OnAfterEvent p entry now = (entry, [], none) ∧
    applyEffects s (OnAfterEvent p entry now).2.1 = s ∧
    callbackCalls (OnAfterEvent p entry now).2.1 = [] := by
  have h1 : OnAfterEvent p entry now = (entry, [], none) := by
    simp [OnAfterEvent, h]
  refine ⟨h1, ?_, ?_⟩ <;> rw [h1] <;> rfl

theorem onAfterEvent_inactive_inert_witness :
    OnAfterEvent (NewPrometheusLoggerWithOptions none) entryInactiveExample 7
      = (entryInactiveExample, [], none) :=
  (onAfterEvent_inactive_inert (NewPrometheusLoggerWithOptions none)
    entryInactiveExample 7 stateExample rfl).1

theorem buildEnforceLabels_eq_filter (l init : List String) :
    l.foldl (fun acc label => if isValidEnforceLabel label then acc ++ [label] else acc) init
      = init ++ l.filter isValidEnforceLabel := by
  induction l generalizing init with
  | nil => simp
  | cons a t ih =>
    by_cases h : isValidEnforceLabel a
    · simp [List.filter_cons, h, ih]
    · simp [List.filter_cons, h, ih]

/-- C5: the resolved enforcement label set starts with the two
mandatory names and appends exactly the supplied names of the closed
allow-list, in order, dropping the rest without error; in particular
options subject, bogus, object yield the four labels allowed, domain,
subject, object. -/
theorem enforceLabels_allowlist (opts : List String) :
    buildEnforceLabels opts = ["allowed", "domain"] ++ opts.filter isValidEnforceLabel ∧
    (buildEnforceLabels opts).take 2 = ["allowed", "domain"] ∧
    (NewPrometheusLoggerWithOptions (some ["subject", "bogus", "object"])).enforceLabels
      = ["allowed", "domain", "subject", "object"] := by
  have h := buildEnforceLabels_eq_filter opts ["allowed", "domain"]
  refine ⟨h, ?_, by decide⟩
  rw [show buildEnforceLabels opts
    = ["allowed", "domain"] ++ opts.filter isValidEnforceLabel from h]
  rfl

/-- C8: after the after-hook runs on an active entry, the end time is
the current time, the start time is untouched, the duration is
recomputed as end time minus start time (never taken from the caller),
and it is non-negative whenever the clock did not go backwards. -/
theorem onAfterEvent_duration (p : PrometheusLogger) (entry : LogEntry) (now : Int)
    (hact : entry.isActive = true) :
    (OnAfterEvent p entry now).1.endTime = now ∧
    (OnAfterEvent p entry now).1.startTime = entry.startTime ∧
    (OnAfterEvent p entry now).1.duration
      = (OnAfterEvent p entry now).1.endTime - (OnAfterEvent p entry now).1.startTime ∧
    (OnAfterEvent p entry now).1.duration = now - entry.startTime ∧
    (entry.startTime ≤ now → 0 ≤ (OnAfterEvent p entry now).1.duration) := by
  have h1 : (OnAfterEvent p entry now).1
      = { entry with endTime := now, duration := now - entry.startTime } := by
    cases hc : p.callback <;> simp [OnAfterEvent, hact, hc]
  rw [h1]
  refine ⟨rfl, rfl, rfl, rfl, fun h => ?_⟩
  show 0 ≤ now - entry.startTime
  omega

theorem onAfterEvent_duration_witness :
    (OnAfterEvent (NewPrometheusLoggerWithOptions none) entryEnforceExample 250).1.duration
      = 250 - entryEnforceExample.startTime :=
  (onAfterEvent_duration (NewPrometheusLoggerWithOptions none)
    entryEnforceExample 250 rfl).2.2.2.1

/-- C4: the label projector resolves each configured name in order
(allowed as a boolean string, domain with the empty string rewritten to
default, subject, object and action verbatim), the value vector is
positionally aligned with the name list, and two entries with identical
resolved values project to the same vector. -/
theorem enforceLabelValues_projection (labels : List String)
    (entry e1 e2 : LogEntry) (i : Nat) :
    (enforceLabelValues labels entry).length = labels.length ∧
    (labels[i]? = some "allowed" →
      (enforceLabelValues labels entry)[i]?
        = some (if entry.allowed then "true" else "false")) ∧
    (labels[i]? = some "domain" →
      (enforceLabelValues labels entry)[i]?
        = some (if entry.domain = "" then "default" else entry.domain)) ∧
    (labels[i]? = some "subject" →
      (enforceLabelValues labels entry)[i]? = some entry.subject) ∧
    (labels[i]? = some "object" →
      (enforceLabelValues labels entry)[i]? = some entry.object) ∧
    (labels[i]? = some "action" →
      (enforceLabelValues labels entry)[i]? = some entry.action) ∧
    ((if e1.allowed then "true" else "false") = (if e2.allowed then "true" else "false") →
      (if e1.domain = "" then "default" else e1.domain)
        = (if e2.domain = "" then "default" else e2.domain) →
      e1.subject = e2.subject → e1.object = e2.object → e1.action = e2.action →
      enforceLabelValues labels e1 = enforceLabelValues labels e2) := by
  refine ⟨by simp [enforceLabelValues], ?_, ?_, ?_, ?_, ?_, ?_⟩
  · intro h; simp [enforceLabelValues, List.getElem?_map, h]
  · intro h; simp [enforceLabelValues, List.getElem?_map, h]
  · intro h; simp [enforceLabelValues, List.getElem?_map, h]
  · intro h; simp [enforceLabelValues, List.getElem?_map, h]
  · intro h; simp [enforceLabelValues, List.getElem?_map, h]
  · intro h1 h2 h3 h4 h5
    unfold enforceLabelValues
    have hf : (fun label => if label = "allowed" then (if e1.allowed then "true" else "false")
        else if label = "domain" then (if e1.domain = "" then "default" else e1.domain)
        else if label = "subject" then e1.subject
        else if label = "object" then e1.object
        else if label = "action" then e1.action
        else "")
      = (fun label => if label = "allowed" then (if e2.allowed then "true" else "false")
        else if label = "domain" then (if e2.domain = "" then "default" else e2.domain)
        else if label = "subject" then e2.subject
        else if label = "object" then e2.object
        else if label = "action" then e2.action
        else "") := by
      funext l
      by_cases ha : l = "allowed"
      · rw [if_pos ha, if_pos ha]; exact h1
      · rw [if_neg ha, if_neg ha]
        by_cases hd : l = "domain"
        · rw [if_pos hd, if_pos hd]; exact h2
        · rw [if_neg hd, if_neg hd]
          by_cases hs : l = "subject"
          · rw [if_pos hs, if_pos hs]; exact h3
          · rw [if_neg hs, if_neg hs]
            by_cases ho : l = "object"
            · rw [if_pos ho, if_pos ho]; exact h4
            · rw [if_neg ho, if_neg ho]
              by_cases hx : l = "action"
              · rw [if_pos hx, if_pos hx]; exact h5
              · rw [if_neg hx, if_neg hx]
    rw [hf]

theorem enforceLabelValues_projection_witness :
    (enforceLabelValues ["allowed", "domain"] entryEnforceExample)[0]?
      = some (if entryEnforceExample.allowed then "true" else "false") :=
  (enforceLabelValues_projection ["allowed", "domain"] entryEnforceExample
    entryEnforceExample entryEnforceExample 0).2.1 rfl

theorem callbackCalls_map_metric (l : List MetricOp) :
    callbackCalls (l.map Effect.metric) = [] := by
  induction l with
  | nil => rfl
  | cons a t ih => simp [callbackCalls, List.filterMap_cons]

theorem callbackCalls_append (a b : List Effect) :
    callbackCalls (a ++ b) = callbackCalls a ++ callbackCalls b := by
  simp [callbackCalls, List.filterMap_append]

theorem enforceLabelValues_fields (labels : List String) (e1 e2 : LogEntry)
    (ha : e1.allowed = e2.allowed) (hd : e1.domain = e2.domain)
    (hs : e1.subject = e2.subject) (ho : e1.object = e2.object)
    (hx : e1.action = e2.action) :
    enforceLabelValues labels e1 = enforceLabelValues labels e2 := by
  unfold enforceLabelValues
  simp only [ha, hd, hs, ho, hx]

/-- C3: on an active enforce entry the after-hook emits exactly one
observation of the recomputed duration in seconds into the enforcement
duration histogram and one increment of the enforcement counter, both
at the projected label vector; on the metric state this adds one to
that counter series, appends one observation to that histogram series,
touches no gauge, and both instruments carry the identical configured
label-name list. -/
theorem onAfterEvent_enforce_metrics (p : PrometheusLogger) (entry : LogEntry)
    (now : Int) (s : MetricState) (opts : Option (List String))
    (hact : entry.isActive = true) (hev : entry.eventType = EventEnforce) :
    metricOps (OnAfterEvent p entry now).2.1
      = [MetricOp.observe MetricFamily.enforceDuration
           (enforceLabelValues p.enforceLabels entry)
           (durationSeconds (now - entry.startTime)),
         MetricOp.inc MetricFamily.enforceTotal
           (enforceLabelValues p.enforceLabels entry)] ∧
    (applyEffects s (OnAfterEvent p entry now).2.1).counters
      = (fun f ls =>
          if f = MetricFamily.enforceTotal ∧ ls = enforceLabelValues p.enforceLabels entry
          then s.counters f ls + 1 else s.counters f ls) ∧
    (applyEffects s (OnAfterEvent p entry now).2.1).histograms
      = (fun f ls =>
          if f = MetricFamily.enforceDuration ∧ ls = enforceLabelValues p.enforceLabels entry
          then s.histograms f ls ++ [durationSeconds (now - entry.startTime)]
          else s.histograms f ls) ∧
    (applyEffects s (OnAfterEvent p entry now).2.1).gauges = s.gauges ∧
    (NewPrometheusLoggerWithOptions opts).enforceDuration.labelNames
      = (NewPrometheusLoggerWithOptions opts).enforceLabels ∧
    (NewPrometheusLoggerWithOptions opts).enforceTotal.labelNames
      = (NewPrometheusLoggerWithOptions opts).enforceLabels := by
  have hops : metricOps (OnAfterEvent p entry now).2.1
      = [MetricOp.observe MetricFamily.enforceDuration
           (enforceLabelValues p.enforceLabels entry)
           (durationSeconds (now - entry.startTime)),
         MetricOp.inc MetricFamily.enforceTotal
           (enforceLabelValues p.enforceLabels entry)] := by
    cases hc : p.callback <;>
      simp [OnAfterEvent, hact, hc, dispatchOps, hev, recordEnforceMetrics,
            metricOps_append, metricOps_map_metric, metricOps] <;>
      exact enforceLabelValues_fields _ _ _ rfl rfl rfl rfl rfl
  have happ : applyEffects s (OnAfterEvent p entry now).2.1
      = applyOp (applyOp s (MetricOp.observe MetricFamily.enforceDuration
            (enforceLabelValues p.enforceLabels entry)
            (durationSeconds (now - entry.startTime))))
          (MetricOp.inc MetricFamily.enforceTotal
            (enforceLabelValues p.enforceLabels entry)) := by
    rw [applyEffects, hops]; rfl
  exact ⟨hops, by rw [happ]; rfl, by rw [happ]; rfl, by rw [happ]; rfl, rfl, rfl⟩

theorem onAfterEvent_enforce_metrics_witness :
    metricOps (OnAfterEvent (NewPrometheusLoggerWithOptions none)
        entryEnforceExample 300).2.1
      = [MetricOp.observe MetricFamily.enforceDuration
           (enforceLabelValues (NewPrometheusLoggerWithOptions none).enforceLabels
             entryEnforceExample)
           (durationSeconds (300 - entryEnforceExample.startTime)),
         MetricOp.inc MetricFamily.enforceTotal
           (enforceLabelValues (NewPrometheusLoggerWithOptions none).enforceLabels
             entryEnforceExample)] :=
  (onAfterEvent_enforce_metrics (NewPrometheusLoggerWithOptions none)
    entryEnforceExample 300 stateExample none rfl rfl).1

theorem dispatchOps_policy (p : PrometheusLogger) (e : LogEntry)
    (hne : ¬ e.eventType = EventEnforce)
    (hev : e.eventType = EventAddPolicy ∨ e.eventType = EventRemovePolicy
            ∨ e.eventType = EventLoadPolicy ∨ e.eventType = EventSavePolicy) :
    dispatchOps p e = recordPolicyMetrics e := by
  unfold dispatchOps
  rw [if_neg hne, if_pos hev]

theorem metricOps_callback_single (e : LogEntry) :
    metricOps [Effect.callback e] = [] := rfl

/-- C6: on an active policy-operation entry (add, remove, load or save)
the after-hook increments the policy-operation counter at the
stringified operation and a success flag that is false exactly when a
failure is present, observes the recomputed duration in seconds into
the policy-operation duration histogram at the operation, and, only
when the rule count is positive, sets (does not increment) the
policy-rule-count gauge at the operation to the rule count; an entry
carrying a failure is recorded the same way, never dropped. -/
theorem onAfterEvent_policy_metrics (p : PrometheusLogger) (entry : LogEntry)
    (now : Int) (s : MetricState)
    (hact : entry.isActive = true)
    (hev : entry.eventType = EventAddPolicy ∨ entry.eventType = EventRemovePolicy
            ∨ entry.eventType = EventLoadPolicy ∨ entry.eventType = EventSavePolicy) :
    metricOps (OnAfterEvent p entry now).2.1
      = [MetricOp.inc MetricFamily.policyOpsTotal
           [entry.eventType, if entry.failure.isSome then "false" else "true"],
         MetricOp.observe MetricFamily.policyOpsDuration [entry.eventType]
           (durationSeconds (now - entry.startTime))]
        ++ (if 0 < entry.ruleCount then
              [MetricOp.set MetricFamily.policyRulesCount [entry.eventType]
                 (entry.ruleCount : ℚ)]
            else []) ∧
    (applyEffects s (OnAfterEvent p entry now).2.1).counters
      = (fun f ls =>
          if f = MetricFamily.policyOpsTotal
              ∧ ls = [entry.eventType, if entry.failure.isSome then "false" else "true"]
          then s.counters f ls + 1 else s.counters f ls) ∧
    (applyEffects s (OnAfterEvent p entry now).2.1).histograms
      = (fun f ls =>
          if f = MetricFamily.policyOpsDuration ∧ ls = [entry.eventType]
          then s.histograms f ls ++ [durationSeconds (now - entry.startTime)]
          else s.histograms f ls) ∧
    (applyEffects s (OnAfterEvent p entry now).2.1).gauges
      = (if 0 < entry.ruleCount then
          (fun f ls =>
            if f = MetricFamily.policyRulesCount ∧ ls = [entry.eventType]
            then some ((entry.ruleCount : ℚ)) else s.gauges f ls)
         else s.gauges) := by
  have hne : ¬ entry.eventType = EventEnforce := by
    rcases hev with h | h | h | h <;> rw [h] <;> decide
  have hops : metricOps (OnAfterEvent p entry now).2.1
      = recordPolicyMetrics
          { entry with
              endTime := now, duration := now - entry.startTime, isActive := true } := by
    cases hc : p.callback <;>
      simp [OnAfterEvent, hact, hc, metricOps_append, metricOps_map_metric,
            metricOps_callback_single,
            dispatchOps_policy p
              { entry with
                  endTime := now, duration := now - entry.startTime, isActive := true } hne hev]
  by_cases hrc : 0 < entry.ruleCount
  · have hlist : recordPolicyMetrics
        { entry with
            endTime := now, duration := now - entry.startTime, isActive := true }
        = [MetricOp.inc MetricFamily.policyOpsTotal
             [entry.eventType, if entry.failure.isSome then "false" else "true"],
           MetricOp.observe MetricFamily.policyOpsDuration [entry.eventType]
             (durationSeconds (now - entry.startTime)),
           MetricOp.set MetricFamily.policyRulesCount [entry.eventType]
             (entry.ruleCount : ℚ)] := by
      simp [recordPolicyMetrics, hrc]
    refine ⟨?_, ?_, ?_, ?_⟩
    · rw [hops, hlist, if_pos hrc]; rfl
    · rw [applyEffects, hops, hlist]; rfl
    · rw [applyEffects, hops, hlist]; rfl
    · rw [applyEffects, hops, hlist, if_pos hrc]; rfl
  · have hlist : recordPolicyMetrics
        { entry with
            endTime := now, duration := now - entry.startTime, isActive := true }
        = [MetricOp.inc MetricFamily.policyOpsTotal
             [entry.eventType, if entry.failure.isSome then "false" else "true"],
           MetricOp.observe MetricFamily.policyOpsDuration [entry.eventType]
             (durationSeconds (now - entry.startTime))] := by
      simp [recordPolicyMetrics, hrc]
    refine ⟨?_, ?_, ?_, ?_⟩
    · rw [hops, hlist, if_neg hrc, List.append_nil]
    · rw [applyEffects, hops, hlist]; rfl
    · rw [applyEffects, hops, hlist]; rfl
    · rw [applyEffects, hops, hlist, if_neg hrc]; rfl

def entryPolicyExample : LogEntry :=
  { eventType := EventAddPolicy, subject := "", object := "", action := "",
    domain := "", allowed := false, ruleCount := 5, failure := some "disk full",
    startTime := 10, endTime := 0, duration := 0, isActive := true }

theorem onAfterEvent_policy_metrics_witness :
    metricOps (OnAfterEvent (NewPrometheusLoggerWithOptions none)
        entryPolicyExample 40).2.1
      = [MetricOp.inc MetricFamily.policyOpsTotal
           [entryPolicyExample.eventType,
            if entryPolicyExample.failure.isSome then "false" else "true"],
         MetricOp.observe MetricFamily.policyOpsDuration [entryPolicyExample.eventType]
           (durationSeconds (40 - entryPolicyExample.startTime))]
        ++ (if 0 < entryPolicyExample.ruleCount then
              [MetricOp.set MetricFamily.policyRulesCount [entryPolicyExample.eventType]
                 (entryPolicyExample.ruleCount : ℚ)]
            else []) :=
  (onAfterEvent_policy_metrics (NewPrometheusLoggerWithOptions none)
    entryPolicyExample 40 stateExample rfl (Or.inl rfl)).1

theorem callbackCalls_callback_single (e : LogEntry) :
    callbackCalls [Effect.callback e] = [e] := rfl

/-- C7: on an active entry with a configured callback the after-hook
invokes the callback exactly once, with the updated entry, strictly
after all metric operations of the trace, and returns the callback's
error as its own result; the metric operations are the same as without
any callback, so a callback error undoes nothing.  Without a callback
the after-hook returns nil. -/
theorem onAfterEvent_callback_order (p : PrometheusLogger) (entry : LogEntry)
    (now : Int) (hact : entry.isActive = true) :
    (∀ cb, p.callback = some cb →
      (OnAfterEvent p entry now).2.2 = cb (OnAfterEvent p entry now).1 ∧
      (OnAfterEvent p entry now).2.1
        = (metricOps (OnAfterEvent p entry now).2.1).map Effect.metric
            ++ [Effect.callback (OnAfterEvent p entry now).1] ∧
      callbackCalls (OnAfterEvent p entry now).2.1 = [(OnAfterEvent p entry now).1] ∧
      metricOps (OnAfterEvent p entry now).2.1
        = metricOps (OnAfterEvent { p with callback := none } entry now).2.1) ∧
    (p.callback = none → (OnAfterEvent p entry now).2.2 = none) := by
  constructor
  · intro cb hcb
    have h1 : OnAfterEvent p entry now
        = ({ entry with
              endTime := now, duration := now - entry.startTime, isActive := true },
           (dispatchOps p { entry with
              endTime := now, duration := now - entry.startTime, isActive := true }).map
                Effect.metric
             ++ [Effect.callback { entry with
                  endTime := now, duration := now - entry.startTime, isActive := true }],
           cb { entry with
              endTime := now, duration := now - entry.startTime, isActive := true }) := by
      simp [OnAfterEvent, hact, hcb]
    have h2 : OnAfterEvent { p with callback := none } entry now
        = ({ entry with
              endTime := now, duration := now - entry.startTime, isActive := true },
           (dispatchOps { p with callback := none } { entry with
              endTime := now, duration := now - entry.startTime, isActive := true }).map
                Effect.metric,
           none) := by
      simp [OnAfterEvent, hact]
    have h3 : dispatchOps { p with callback := none }
        { entry with
          endTime := now, duration := now - entry.startTime, isActive := true }
        = dispatchOps p { entry with
            endTime := now, duration := now - entry.startTime, isActive := true } := rfl
    refine ⟨by rw [h1], ?_, ?_, ?_⟩
    · rw [h1, metricOps_append, metricOps_map_metric, metricOps_callback_single,
          List.append_nil]
    · rw [h1, callbackCalls_append, callbackCalls_map_metric,
          callbackCalls_callback_single, List.nil_append]
    · rw [h1, h2, h3, metricOps_append, metricOps_map_metric,
          metricOps_callback_single, List.append_nil]
  · intro hnone
    simp [OnAfterEvent, hact, hnone]

def callbackExample : LogEntry → Option String := fun _ => some "callback failed"

def loggerWithCallbackExample : PrometheusLogger :=
  (SetLogCallback (NewPrometheusLoggerWithOptions none) callbackExample).1

theorem onAfterEvent_callback_order_witness :
    (OnAfterEvent loggerWithCallbackExample entryEnforceExample 300).2.2
      = callbackExample (OnAfterEvent loggerWithCallbackExample entryEnforceExample 300).1 :=
  ((onAfterEvent_callback_order loggerWithCallbackExample entryEnforceExample 300 rfl).1
    callbackExample rfl).1

/-- C10: on an active entry whose event type is none of the five known
kinds (the representation is an open string), the after-hook still
stamps the end time and recomputes the duration, emits no metric
operation (the dispatch falls through every case, leaving the metric
state untouched), still invokes the configured callback and relays its
error, and returns nil when no callback is configured. -/
theorem onAfterEvent_unknown_kind (p : PrometheusLogger) (entry : LogEntry)
    (now : Int) (s : MetricState)
    (hact : entry.isActive = true)
    (h1 : entry.eventType ≠ EventEnforce) (h2 : entry.eventType ≠ EventAddPolicy)
    (h3 : entry.eventType ≠ EventRemovePolicy) (h4 : entry.eventType ≠ EventLoadPolicy)
    (h5 : entry.eventType ≠ EventSavePolicy) :
    (OnAfterEvent p entry now).1.endTime = now ∧
    (OnAfterEvent p entry now).1.duration = now - entry.startTime ∧
    metricOps (OnAfterEvent p entry now).2.1 = [] ∧
    applyEffects s (OnAfterEvent p entry now).2.1 = s ∧
    (∀ cb, p.callback = some cb →
      (OnAfterEvent p entry now).2.2 = cb (OnAfterEvent p entry now).1 ∧
      (OnAfterEvent p entry now).2.1
        = [Effect.callback (OnAfterEvent p entry now).1]) ∧
    (p.callback = none →
      (OnAfterEvent p entry now).2.2 = none ∧ (OnAfterEvent p entry now).2.1 = []) := by
  have hd : dispatchOps p { entry with
      endTime := now, duration := now - entry.startTime, isActive := true } = [] := by
    simp [dispatchOps, h1, h2, h3, h4, h5]
  cases hc : p.callback with
  | some cb =>
    have h : OnAfterEvent p entry now
        = ({ entry with
              endTime := now, duration := now - entry.startTime, isActive := true },
           [Effect.callback { entry with
              endTime := now, duration := now - entry.startTime, isActive := true }],
           cb { entry with
              endTime := now, duration := now - entry.startTime, isActive := true }) := by
      simp [OnAfterEvent, hact, hc, hd]
    refine ⟨by rw [h], by rw [h], by rw [h]; rfl, by rw [h]; rfl, ?_, ?_⟩
    · intro cb2 hcb2
      injection hcb2 with hcb3
      subst hcb3
      exact ⟨by rw [h], by rw [h]⟩
    · intro hn
      exact Option.noConfusion hn
  | none =>
    have h : OnAfterEvent p entry now
        = ({ entry with
              endTime := now, duration := now - entry.startTime, isActive := true },
           [], none) := by
      simp [OnAfterEvent, hact, hc, hd]
    refine ⟨by rw [h], by rw [h], by rw [h]; rfl, by rw [h]; rfl, ?_,
      fun _ => ⟨by rw [h], by rw [h]⟩⟩
    intro cb2 hcb2
    exact Option.noConfusion hcb2

def entryUnknownExample : LogEntry :=
  { entryEnforceExample with eventType := "bogus" }

theorem onAfterEvent_unknown_kind_witness :
    metricOps (OnAfterEvent (NewPrometheusLoggerWithOptions none)
      entryUnknownExample 9).2.1 = [] :=
  (onAfterEvent_unknown_kind (NewPrometheusLoggerWithOptions none) entryUnknownExample 9
    stateExample rfl (by decide) (by decide) (by decide) (by decide) (by decide)).2.2.1

theorem mem_registryUnregister (reg : Registry) (n m : String)
    (h : m ∈ (registryUnregister reg n).1) : m ∈ reg ∧ m ≠ n := by
  by_cases hn : n ∈ reg
  · rw [registryUnregister, if_pos hn] at h
    have h2 := List.mem_filter.mp h
    exact ⟨h2.1, of_decide_eq_true h2.2⟩
  · rw [registryUnregister, if_neg hn] at h
    exact ⟨h, fun he => hn (he ▸ h)⟩

theorem registryUnregister_not_mem (reg : Registry) (n : String) (h : n ∉ reg) :
    registryUnregister reg n = (reg, false) := by
  rw [registryUnregister, if_neg h]

theorem registerCollector_some (reg : Registry) (n : String) (h : n ∉ reg) :
    registerCollector (some reg) n = some (reg ++ [n]) := by
  simp [registerCollector, h]

theorem not_mem_append_single (x y : String) (a : List String)
    (ha : x ∉ a) (hy : x ≠ y) : x ∉ a ++ [y] := by
  intro h
  rcases List.mem_append.mp h with h | h
  · exact ha h
  · rw [List.mem_singleton] at h
    exact hy h

theorem loggerMetricNames_new (opts : Option (List String)) :
    loggerMetricNames (NewPrometheusLoggerWithOptions opts)
      = ["casbin_enforce_duration_seconds", "casbin_enforce_total",
         "casbin_policy_operations_total", "casbin_policy_operations_duration_seconds",
         "casbin_policy_rules_count", "casbin_policy_state_count"] := rfl

/-- C9: unregistering removes all six metric families from the
registry without ever failing, a second call on the same registry also
completes (returning the registry unchanged and an aggregate false),
and after a full unregistration a fresh registration of the six
families against that registry succeeds without a name collision. -/
theorem unregisterFrom_idempotent (reg : Registry) (opts : Option (List String)) :
    (∀ n, n ∈ loggerMetricNames (NewPrometheusLoggerWithOptions opts) →
      n ∉ (UnregisterFrom (NewPrometheusLoggerWithOptions opts) reg).1) ∧
    UnregisterFrom (NewPrometheusLoggerWithOptions opts)
        ((UnregisterFrom (NewPrometheusLoggerWithOptions opts) reg).1)
      = ((UnregisterFrom (NewPrometheusLoggerWithOptions opts) reg).1, false) ∧
    (mustRegisterAll ((UnregisterFrom (NewPrometheusLoggerWithOptions opts) reg).1)
        (NewPrometheusLoggerWithOptions opts)).isSome = true := by
  have e1 : (NewPrometheusLoggerWithOptions opts).enforceDuration.name
      = "casbin_enforce_duration_seconds" := rfl
  have e2 : (NewPrometheusLoggerWithOptions opts).enforceTotal.name
      = "casbin_enforce_total" := rfl
  have e3 : (NewPrometheusLoggerWithOptions opts).policyOpsTotal.name
      = "casbin_policy_operations_total" := rfl
  have e4 : (NewPrometheusLoggerWithOptions opts).policyOpsDuration.name
      = "casbin_policy_operations_duration_seconds" := rfl
  have e5 : (NewPrometheusLoggerWithOptions opts).policyRulesCount.name
      = "casbin_policy_rules_count" := rfl
  have e6 : (NewPrometheusLoggerWithOptions opts).policyStateCount.name
      = "casbin_policy_state_count" := rfl
  have key : ∀ m, m ∈ (UnregisterFrom (NewPrometheusLoggerWithOptions opts) reg).1 →
      m ∈ reg ∧ m ≠ "casbin_enforce_duration_seconds" ∧ m ≠ "casbin_enforce_total"
      ∧ m ≠ "casbin_policy_operations_total"
      ∧ m ≠ "casbin_policy_operations_duration_seconds"
      ∧ m ≠ "casbin_policy_rules_count" ∧ m ≠ "casbin_policy_state_count" := by
    intro m hm
    simp only [UnregisterFrom] at hm
    obtain ⟨hm5, ne6⟩ := mem_registryUnregister _ _ _ hm
    obtain ⟨hm4, ne5⟩ := mem_registryUnregister _ _ _ hm5
    obtain ⟨hm3, ne4⟩ := mem_registryUnregister _ _ _ hm4
    obtain ⟨hm2, ne3⟩ := mem_registryUnregister _ _ _ hm3
    obtain ⟨hm1, ne2⟩ := mem_registryUnregister _ _ _ hm2
    obtain ⟨hm0, ne1⟩ := mem_registryUnregister _ _ _ hm1
    exact ⟨hm0, ne1, ne2, ne3, ne4, ne5, ne6⟩
  have gen2 : ∀ r : Registry,
      "casbin_enforce_duration_seconds" ∉ r → "casbin_enforce_total" ∉ r →
      "casbin_policy_operations_total" ∉ r →
      "casbin_policy_operations_duration_seconds" ∉ r →
      "casbin_policy_rules_count" ∉ r → "casbin_policy_state_count" ∉ r →
      UnregisterFrom (NewPrometheusLoggerWithOptions opts) r = (r, false) := by
    intro r h1 h2 h3 h4 h5 h6
    simp [UnregisterFrom, e1, e2, e3, e4, e5, e6,
          registryUnregister_not_mem _ _ h1, registryUnregister_not_mem _ _ h2,
          registryUnregister_not_mem _ _ h3, registryUnregister_not_mem _ _ h4,
          registryUnregister_not_mem _ _ h5, registryUnregister_not_mem _ _ h6]
  have gen3 : ∀ r : Registry,
      "casbin_enforce_duration_seconds" ∉ r → "casbin_enforce_total" ∉ r →
      "casbin_policy_operations_total" ∉ r →
      "casbin_policy_operations_duration_seconds" ∉ r →
      "casbin_policy_rules_count" ∉ r → "casbin_policy_state_count" ∉ r →
      (mustRegisterAll r (NewPrometheusLoggerWithOptions opts)).isSome = true := by
    intro r h1 h2 h3 h4 h5 h6
    have m2 : "casbin_enforce_total" ∉ r ++ ["casbin_enforce_duration_seconds"] :=
      not_mem_append_single _ _ _ h2 (by decide)
    have m3 : "casbin_policy_operations_total"
        ∉ (r ++ ["casbin_enforce_duration_seconds"]) ++ ["casbin_enforce_total"] :=
      not_mem_append_single _ _ _ (not_mem_append_single _ _ _ h3 (by decide)) (by decide)
    have m4 : "casbin_policy_operations_duration_seconds"
        ∉ ((r ++ ["casbin_enforce_duration_seconds"]) ++ ["casbin_enforce_total"])
          ++ ["casbin_policy_operations_total"] :=
      not_mem_append_single _ _ _
        (not_mem_append_single _ _ _ (not_mem_append_single _ _ _ h4 (by decide))
          (by decide)) (by decide)
    have m5 : "casbin_policy_rules_count"
        ∉ (((r ++ ["casbin_enforce_duration_seconds"]) ++ ["casbin_enforce_total"])
          ++ ["casbin_policy_operations_total"])
          ++ ["casbin_policy_operations_duration_seconds"] :=
      not_mem_append_single _ _ _
        (not_mem_append_single _ _ _
          (not_mem_append_single _ _ _ (not_mem_append_single _ _ _ h5 (by decide))
            (by decide)) (by decide)) (by decide)
    have m6 : "casbin_policy_state_count"
        ∉ ((((r ++ ["casbin_enforce_duration_seconds"]) ++ ["casbin_enforce_total"])
          ++ ["casbin_policy_operations_total"])
          ++ ["casbin_policy_operations_duration_seconds"])
          ++ ["casbin_policy_rules_count"] :=
      not_mem_append_single _ _ _
        (not_mem_append_single _ _ _
          (not_mem_append_single _ _ _
            (not_mem_append_single _ _ _ (not_mem_append_single _ _ _ h6 (by decide))
              (by decide)) (by decide)) (by decide)) (by decide)
    rw [mustRegisterAll, loggerMetricNames_new, List.foldl_cons,
        registerCollector_some _ _ h1, List.foldl_cons, registerCollector_some _ _ m2,
        List.foldl_cons, registerCollector_some _ _ m3, List.foldl_cons,
        registerCollector_some _ _ m4, List.foldl_cons, registerCollector_some _ _ m5,
        List.foldl_cons, registerCollector_some _ _ m6, List.foldl_nil]
    rfl
  have k1 : "casbin_enforce_duration_seconds"
      ∉ (UnregisterFrom (NewPrometheusLoggerWithOptions opts) reg).1 :=
    fun hm => (key _ hm).2.1 rfl
  have k2 : "casbin_enforce_total"
      ∉ (UnregisterFrom (NewPrometheusLoggerWithOptions opts) reg).1 :=
    fun hm => (key _ hm).2.2.1 rfl
  have k3 : "casbin_policy_operations_total"
      ∉ (UnregisterFrom (NewPrometheusLoggerWithOptions opts) reg).1 :=
    fun hm => (key _ hm).2.2.2.1 rfl
  have k4 : "casbin_policy_operations_duration_seconds"
      ∉ (UnregisterFrom (NewPrometheusLoggerWithOptions opts) reg).1 :=
    fun hm => (key _ hm).2.2.2.2.1 rfl
  have k5 : "casbin_policy_rules_count"
      ∉ (UnregisterFrom (NewPrometheusLoggerWithOptions opts) reg).1 :=
    fun hm => (key _ hm).2.2.2.2.2.1 rfl
  have k6 : "casbin_policy_state_count"
      ∉ (UnregisterFrom (NewPrometheusLoggerWithOptions opts) reg).1 :=
    fun hm => (key _ hm).2.2.2.2.2.2 rfl
  refine ⟨?_, gen2 _ k1 k2 k3 k4 k5 k6, gen3 _ k1 k2 k3 k4 k5 k6⟩
  intro n hn hmem
  obtain ⟨-, ne1, ne2, ne3, ne4, ne5, ne6⟩ := key n hmem
  rw [loggerMetricNames_new] at hn
  simp only [List.mem_cons, List.not_mem_nil, or_false] at hn
  rcases hn with h | h | h | h | h | h
  exacts [ne1 h, ne2 h, ne3 h, ne4 h, ne5 h, ne6 h]

theorem unregisterFrom_idempotent_witness :
    UnregisterFrom (NewPrometheusLoggerWithOptions none)
        ((UnregisterFrom (NewPrometheusLoggerWithOptions none)
            ["casbin_enforce_total", "other_collector"]).1)
      = ((UnregisterFrom (NewPrometheusLoggerWithOptions none)
            ["casbin_enforce_total", "other_collector"]).1, false) :=
  (unregisterFrom_idempotent ["casbin_enforce_total", "other_collector"] none).2.1
